import Mathlib

/-!
Verification development for the spy-iron-condor-pro repository.

The Python sources are shallowly embedded here:
* Python floats are modelled by exact rationals (`ℚ`); the claims under
  study are algebraic ledger/threshold facts for which exact arithmetic is
  the intended reading (the spec itself only asks for agreement "within
  floating tolerance").
* Transcendental library calls (`math.log`, `math.sqrt`, `scipy.stats.norm`)
  are not rational-valued; the Black-Scholes branch values that use them are
  abstracted as function parameters, and every theorem quantifies over those
  parameters (adding only the documented range facts of the library, such as
  a CDF taking values in `[0, 1]`, as hypotheses where needed).
* `None`/`NaN` cells are modelled with `Option ℚ` (`none` = undefined).
* Python `round(x, n)` (round-half-to-even on the scaled value) is modelled
  by `roundHalfEven`.
-/

namespace SpyIC

/-- Round-half-to-even on a rational, as Python's builtin `round` does on the
scaled value: the nearest integer, ties going to the even one. -/
def roundHalfEven (x : ℚ) : ℤ :=
  let n := ⌊x⌋
  let r := x - (n : ℚ)
  if r < 1/2 then n
  else if 1/2 < r then n + 1
  else if n % 2 = 0 then n else n + 1

/-- Python `round(x, 1)`. -/
def round1 (x : ℚ) : ℚ := (roundHalfEven (x * 10) : ℚ) / 10

/-- Python `round(x, 2)`. -/
def round2 (x : ℚ) : ℚ := (roundHalfEven (x * 100) : ℚ) / 100

theorem roundHalfEven_le {x : ℚ} {m : ℤ} (h : x ≤ (m : ℚ)) : roundHalfEven x ≤ m := by
  unfold roundHalfEven
  have hfloor : ⌊x⌋ ≤ m := by
    have := Int.floor_le_floor (α := ℚ) h
    simpa using this
  by_cases hlt : ⌊x⌋ < m
  · have h1 : ⌊x⌋ + 1 ≤ m := hlt
    dsimp only
    split
    · exact hfloor
    · split
      · exact h1
      · split
        · exact hfloor
        · exact h1
  · have heq : ⌊x⌋ = m := le_antisymm hfloor (not_lt.mp hlt)
    have hxm : x = (m : ℚ) := by
      have hle : (m : ℚ) ≤ x := by rw [← heq]; exact Int.floor_le x
      exact le_antisymm h hle
    subst hxm
    have hfl2 : ⌊(m : ℚ)⌋ = m := Int.floor_intCast m
    dsimp only
    rw [hfl2]
    have : (m : ℚ) - (m : ℚ) = 0 := sub_self _
    rw [this]
    norm_num

theorem le_roundHalfEven {x : ℚ} {m : ℤ} (h : (m : ℚ) ≤ x) : m ≤ roundHalfEven x := by
  have hfloor : m ≤ ⌊x⌋ := Int.le_floor.mpr h
  unfold roundHalfEven
  dsimp only
  split
  · exact hfloor
  · split
    · exact le_trans hfloor (by omega)
    · split
      · exact hfloor
      · exact le_trans hfloor (by omega)

/-! ## Paper trading portfolio ledger (src/paper.py)

`PaperTradingPortfolio` is embedded as an immutable state record; each
mutating method becomes a function returning the success flag together with
the next state (the human-readable message strings and the wall-clock
timestamps, which carry no ledger content, are elided). -/

namespace Paper

/-- The part of the `setup` dict that `open_position` reads. -/
structure Setup where
  max_profit : ℚ
  max_loss : ℚ
  deriving DecidableEq, Repr

/-- A position dict as built in `open_position` (timestamps elided). -/
structure Position where
  id : ℕ
  setup : Setup
  quantity : ℕ
  entry_credit : ℚ
  max_loss : ℚ
  margin_held : ℚ
  status : String
  current_pnl : ℚ
  realized_pnl : Option ℚ
  deriving DecidableEq, Repr

/-- The `PaperTradingPortfolio` state. -/
structure Portfolio where
  cash : ℚ
  initial_cash : ℚ
  positions : List Position
  closed_positions : List Position
  trade_count : ℕ
  total_pnl : ℚ
  deriving DecidableEq, Repr

/-- `PaperTradingPortfolio.__init__`. -/
def initPortfolio (initial_cash : ℚ) : Portfolio :=
  { cash := initial_cash
    initial_cash := initial_cash
    positions := []
    closed_positions := []
    trade_count := 0
    total_pnl := 0 }

/-- `PaperTradingPortfolio.open_position`. -/
def open_position (p : Portfolio) (setup : Setup) (quantity : ℕ) : Bool × Portfolio :=
  let credit := setup.max_profit * quantity
  let max_loss := setup.max_loss * quantity
  let margin_required := max_loss
  if margin_required > p.cash then (false, p)
  else
    let tc := p.trade_count + 1
    let position : Position :=
      { id := tc
        setup := setup
        quantity := quantity
        entry_credit := credit
        max_loss := max_loss
        margin_held := margin_required
        status := "open"
        current_pnl := 0
        realized_pnl := none }
    (true,
      { p with
        trade_count := tc
        cash := p.cash - margin_required
        positions := p.positions ++ [position] })

/-- `PaperTradingPortfolio.close_position`.  Python finds the first open
position with the given id, credits `margin_held + realized_pnl` to cash,
marks it closed and moves it to the closed list. -/
def close_position (p : Portfolio) (position_id : ℕ) (pnl_pct : ℚ) : Bool × Portfolio :=
  match p.positions.find? (fun q => q.id == position_id) with
  | none => (false, p)
  | some pos =>
    let realized_pnl := pos.entry_credit * pnl_pct
    let posC := { pos with status := "closed", realized_pnl := some realized_pnl }
    (true,
      { p with
        cash := p.cash + pos.margin_held + realized_pnl
        total_pnl := p.total_pnl + realized_pnl
        positions := p.positions.eraseP (fun q => q.id == position_id)
        closed_positions := p.closed_positions ++ [posC] })

/-- A ledger call: `open_position` or `close_position`. -/
inductive Op where
  | openPos (setup : Setup) (quantity : ℕ)
  | closePos (position_id : ℕ) (pnl_pct : ℚ)
  deriving DecidableEq, Repr

/-- Apply one call, keeping the resulting state. -/
def applyOp (p : Portfolio) : Op → Portfolio
  | .openPos s q => (open_position p s q).2
  | .closePos i pct => (close_position p i pct).2

/-- Run a finite sequence of ledger calls. -/
def run (p : Portfolio) (ops : List Op) : Portfolio :=
  ops.foldl applyOp p

/-- Total margin held by a list of positions. -/
def marginSum (l : List Position) : ℚ := (l.map Position.margin_held).sum

/-- Total realized pnl recorded on a list of (closed) positions. -/
def realizedSum (l : List Position) : ℚ := (l.map (fun q => q.realized_pnl.getD 0)).sum

theorem marginSum_append (a b : List Position) :
    marginSum (a ++ b) = marginSum a + marginSum b := by
  simp [marginSum]

theorem realizedSum_append (a b : List Position) :
    realizedSum (a ++ b) = realizedSum a + realizedSum b := by
  simp [realizedSum]

theorem marginSum_eraseP (pr : Position → Bool) :
    ∀ (l : List Position) (a : Position), l.find? pr = some a →
      marginSum (l.eraseP pr) = marginSum l - a.margin_held := by
  intro l
  induction l with
  | nil => intro a h; simp [List.find?] at h
  | cons b bs ih =>
    intro a h
    by_cases hb : pr b
    · rw [List.find?_cons_of_pos _ hb] at h
      cases h
      rw [List.eraseP_cons_of_pos hb]
      simp [marginSum]
    · rw [List.find?_cons_of_neg _ hb] at h
      rw [List.eraseP_cons_of_neg hb]
      have := ih a h
      simp [marginSum] at this ⊢
      rw [this]
      ring

/-- The cash-conservation invariant of the claim. -/
def Inv (p : Portfolio) : Prop :=
  p.cash + marginSum p.positions = p.initial_cash + realizedSum p.closed_positions

theorem inv_applyOp (p : Portfolio) (hp : Inv p) (op : Op) : Inv (applyOp p op) := by
  cases op with
  | openPos s q =>
    unfold applyOp open_position
    dsimp only
    split
    · exact hp
    · unfold Inv at hp ⊢
      rw [marginSum_append]
      simp only [marginSum, List.map_cons, List.map_nil, List.sum_cons, List.sum_nil] at *
      linear_combination hp
  | closePos i pct =>
    unfold applyOp close_position
    dsimp only
    split
    · exact hp
    · rename_i pos hfind
      unfold Inv at hp ⊢
      rw [realizedSum_append, marginSum_eraseP _ _ _ hfind]
      simp only [realizedSum, List.map_cons, List.map_nil, List.sum_cons, List.sum_nil,
        Option.getD_some] at *
      linear_combination hp

theorem inv_run (p : Portfolio) (hp : Inv p) (ops : List Op) : Inv (run p ops) := by
  induction ops generalizing p with
  | nil => exact hp
  | cons op rest ih => exact ih (applyOp p op) (inv_applyOp p hp op)

theorem initial_cash_applyOp (p : Portfolio) (op : Op) :
    (applyOp p op).initial_cash = p.initial_cash := by
  cases op with
  | openPos s q =>
    unfold applyOp open_position
    dsimp only
    split <;> rfl
  | closePos i pct =>
    unfold applyOp close_position
    dsimp only
    split <;> rfl

theorem initial_cash_run (p : Portfolio) (ops : List Op) :
    (run p ops).initial_cash = p.initial_cash := by
  induction ops generalizing p with
  | nil => rfl
  | cons op rest ih =>
    unfold run
    rw [List.foldl_cons]
    rw [show List.foldl applyOp (applyOp p op) rest = run (applyOp p op) rest from rfl]
    rw [ih (applyOp p op), initial_cash_applyOp]

end Paper

/-- C1: for every initial cash `C0` and every finite sequence of
`open_position`/`close_position` calls, after the sequence
`cash + Σ (margin_held of open positions) = C0 + Σ (realized_pnl of closed
positions)`; moreover a successful `open_position` decreases cash by exactly
`max_loss × quantity` and a successful `close_position` increases cash by
exactly `margin_held + realized_pnl` of the closed position. -/
theorem C1_ledger_cash_conservation :
    (∀ (C0 : ℚ) (ops : List Paper.Op),
      (Paper.run (Paper.initPortfolio C0) ops).cash
          + Paper.marginSum (Paper.run (Paper.initPortfolio C0) ops).positions
        = C0 + Paper.realizedSum (Paper.run (Paper.initPortfolio C0) ops).closed_positions)
    ∧ (∀ (p : Paper.Portfolio) (s : Paper.Setup) (q : ℕ),
        ¬ (s.max_loss * q > p.cash) →
          (Paper.open_position p s q).1 = true
          ∧ (Paper.open_position p s q).2.cash = p.cash - s.max_loss * q)
    ∧ (∀ (p : Paper.Portfolio) (i : ℕ) (pct : ℚ) (pos : Paper.Position),
        p.positions.find? (fun x => x.id == i) = some pos →
          (Paper.close_position p i pct).1 = true
          ∧ (Paper.close_position p i pct).2.cash
            = p.cash + pos.margin_held + pos.entry_credit * pct) := by
  refine ⟨?_, ?_, ?_⟩
  · intro C0 ops
    have h0 : Paper.Inv (Paper.initPortfolio C0) := by
      simp [Paper.Inv, Paper.initPortfolio, Paper.marginSum, Paper.realizedSum]
    have h := Paper.inv_run _ h0 ops
    have hc := Paper.initial_cash_run (Paper.initPortfolio C0) ops
    unfold Paper.Inv at h
    rw [hc] at h
    simpa [Paper.initPortfolio] using h
  · intro p s q hle
    unfold Paper.open_position
    dsimp only
    rw [if_neg hle]
    exact ⟨rfl, rfl⟩
  · intro p i pct pos hfind
    unfold Paper.close_position
    dsimp only
    split
    · rename_i hnone
      rw [hfind] at hnone
      cases hnone
    · rename_i pos2 hsome
      rw [hfind] at hsome
      cases hsome
      exact ⟨rfl, rfl⟩

/-- Concrete portfolio with one open position, used by the C1 witness. -/
def Paper.examplePos : Paper.Position :=
  { id := 1
    setup := { max_profit := 200, max_loss := 800 }
    quantity := 1
    entry_credit := 200
    max_loss := 800
    margin_held := 800
    status := "open"
    current_pnl := 0
    realized_pnl := none }

/-- Concrete portfolio state used by the C1 witness. -/
def Paper.examplePf : Paper.Portfolio :=
  { cash := 9200
    initial_cash := 10000
    positions := [Paper.examplePos]
    closed_positions := []
    trade_count := 1
    total_pnl := 0 }

/-- Witness for C1 at concrete inputs: opening an 800-margin position on a
10000-cash book leaves 9200 of cash, and closing it at half of max profit
pays back 800 + 100. -/
theorem C1_ledger_cash_conservation_witness :
    (Paper.open_position (Paper.initPortfolio 10000)
        { max_profit := 200, max_loss := 800 } 1).2.cash = 10000 - 800 * 1
    ∧ (Paper.close_position Paper.examplePf 1 (1/2)).2.cash = 9200 + 800 + 200 * (1/2) := by
  constructor
  · have h := C1_ledger_cash_conservation.2.1 (Paper.initPortfolio 10000)
      { max_profit := 200, max_loss := 800 } 1 (by norm_num [Paper.initPortfolio])
    simpa [Paper.initPortfolio] using h.2
  · have h := C1_ledger_cash_conservation.2.2 Paper.examplePf 1 (1/2)
      Paper.examplePos (by decide)
    have h2 := h.2
    simpa [Paper.examplePf, Paper.examplePos] using h2

/-- C2: rejected ledger operations are atomic no-ops: an `open_position`
whose margin exceeds cash, and a `close_position` whose id is absent from
the open list, both return a failure flag and leave the portfolio state
structurally unchanged. -/
theorem C2_rejected_ops_are_noops :
    (∀ (p : Paper.Portfolio) (s : Paper.Setup) (q : ℕ),
      s.max_loss * q > p.cash → Paper.open_position p s q = (false, p))
    ∧ (∀ (p : Paper.Portfolio) (i : ℕ) (pct : ℚ),
      (∀ pos ∈ p.positions, pos.id ≠ i) → Paper.close_position p i pct = (false, p)) := by
  constructor
  · intro p s q hgt
    unfold Paper.open_position
    dsimp only
    rw [if_pos hgt]
  · intro p i pct hno
    have hfind : p.positions.find? (fun x => x.id == i) = none := by
      rw [List.find?_eq_none]
      intro pos hmem
      simpa using hno pos hmem
    unfold Paper.close_position
    dsimp only
    split
    · rfl
    · rename_i pos hsome
      rw [hfind] at hsome
      cases hsome

/-- Witness for C2 at concrete inputs: an over-margin open and an
unknown-id close are both rejected and preserve the example state. -/
theorem C2_rejected_ops_are_noops_witness :
    Paper.open_position Paper.examplePf { max_profit := 500, max_loss := 99999 } 1
        = (false, Paper.examplePf)
    ∧ Paper.close_position Paper.examplePf 42 (1/2) = (false, Paper.examplePf) := by
  constructor
  · exact C2_rejected_ops_are_noops.1 Paper.examplePf
      { max_profit := 500, max_loss := 99999 } 1 (by norm_num [Paper.examplePf])
  · exact C2_rejected_ops_are_noops.2 Paper.examplePf 42 (1/2) (by decide)

/-! ## Greeks (src/greeks.py)

Each `calculate_*` first short-circuits on `T <= 0`, then evaluates a
Black-Scholes expression inside `try`, falling back to a fixed constant on
any exception.  In the rational model the `try` body is split into
(a) `bsRaises`, the exact condition under which the Python float expression
raises (`ZeroDivisionError` from `S / K` with `K = 0` or from the
`sigma * sqrt(T/365)` denominator with `sigma = 0`; `ValueError` from
`log` of a non-positive quotient), and (b) an abstract function parameter
standing for the transcendental value of the successful branch
(`norm.cdf(d1)` composed with `d1` and the rest of the formula), since
`log`/`sqrt`/`exp`/`Phi` have no exact rational form.  Every theorem below
holds for all values of these parameters. -/

/-- Condition under which the Black-Scholes `try` body of src/greeks.py
raises for `T > 0`: `K = 0` (division by zero inside `log(S / K)`),
`S / K <= 0` (`log` domain error), or `sigma = 0` (division by zero in the
`d1` denominator, as `sqrt(T/365) > 0`). -/
def bsRaises (S K sigma : ℚ) : Bool :=
  K == 0 || decide (S / K ≤ 0) || sigma == 0

/-- `calculate_delta` of src/greeks.py.  `cdfd1 S K T sigma` abstracts the
float value `norm.cdf(d1)` of the successful branch. -/
def calculate_delta (cdfd1 : ℚ → ℚ → ℚ → ℚ → ℚ)
    (S K T sigma : ℚ) (option_type : String) : ℚ :=
  if T ≤ 0 then
    if option_type = "call" then (if S > K then 1 else 0)
    else (if S < K then -1 else 0)
  else if bsRaises S K sigma then
    if option_type = "call" then 1/2 else -1/2
  else
    if option_type = "call" then cdfd1 S K T sigma
    else cdfd1 S K T sigma - 1

/-- `calculate_gamma` of src/greeks.py; `body` abstracts
`norm.pdf(d1) / (S * sigma * sqrt(T/365))`. -/
def calculate_gamma (body : ℚ → ℚ → ℚ → ℚ → ℚ) (S K T sigma : ℚ) : ℚ :=
  if T ≤ 0 then 0
  else if bsRaises S K sigma then 1/100
  else body S K T sigma

/-- `calculate_theta` of src/greeks.py; `body` abstracts the per-day theta
expression of the successful branch (which also depends on the side). -/
def calculate_theta (body : ℚ → ℚ → ℚ → ℚ → String → ℚ)
    (S K T sigma : ℚ) (option_type : String) : ℚ :=
  if T ≤ 0 then 0
  else if bsRaises S K sigma then -(1/20)
  else body S K T sigma option_type

/-- `calculate_vega` of src/greeks.py; `body` abstracts
`S * norm.pdf(d1) * sqrt(T/365) / 100`. -/
def calculate_vega (body : ℚ → ℚ → ℚ → ℚ → ℚ) (S K T sigma : ℚ) : ℚ :=
  if T ≤ 0 then 0
  else if bsRaises S K sigma then 3/20
  else body S K T sigma

/-- `calculate_rho` of src/greeks.py; `body` abstracts the successful-branch
rho expression (side-dependent). -/
def calculate_rho (body : ℚ → ℚ → ℚ → ℚ → String → ℚ)
    (S K T sigma : ℚ) (option_type : String) : ℚ :=
  if T ≤ 0 then 0
  else if bsRaises S K sigma then 1/100
  else body S K T sigma option_type

/-- C4 counterexample: the claim asserts that for `T < 0` every
`calculate_*` returns its documented fallback constant, but the code takes
the `T <= 0` branch instead: `calculate_gamma` returns `0`, not `0.01`, and
`calculate_delta` returns the step value `1`, not magnitude `0.5`, at
`S = 100, K = 90, T = -1, sigma = 0.2` (shown for every possible value of
the abstracted bodies, here instantiated with constants). -/
theorem C4_greeks_fallback_counterexample :
    calculate_gamma (fun _ _ _ _ => 7) 100 100 (-1) (1/5) = 0
    ∧ (0 : ℚ) ≠ 1/100
    ∧ calculate_delta (fun _ _ _ _ => 7) 100 90 (-1) (1/5) "call" = 1
    ∧ (1 : ℚ) ≠ 1/2 := by
  refine ⟨?_, by norm_num, ?_, by norm_num⟩
  · unfold calculate_gamma
    norm_num
  · unfold calculate_delta
    norm_num

/-- C4 (amended): for `sigma = 0` or `K = 0` with the other arguments
positive (so `T > 0`, `S > 0`), each `calculate_*` returns its documented
fixed fallback constant (delta of magnitude 0.5 signed by side, gamma 0.01,
theta -0.05, vega 0.15, rho 0.01) and does not raise, for every value of the
abstracted Black-Scholes bodies; for `T < 0` the functions instead return
their `T <= 0` branch values (delta the moneyness step function, the other
Greeks 0), as the counterexample shows. -/
theorem C4_greeks_fallback_amended
    (cdfd1 gbody vbody : ℚ → ℚ → ℚ → ℚ → ℚ)
    (tbody rbody : ℚ → ℚ → ℚ → ℚ → String → ℚ)
    (S K T sigma : ℚ) (option_type : String)
    (_hS : 0 < S) (hT : 0 < T) (hdeg : sigma = 0 ∨ K = 0) :
    calculate_delta cdfd1 S K T sigma option_type
        = (if option_type = "call" then 1/2 else -(1/2))
    ∧ calculate_gamma gbody S K T sigma = 1/100
    ∧ calculate_theta tbody S K T sigma option_type = -(1/20)
    ∧ calculate_vega vbody S K T sigma = 3/20
    ∧ calculate_rho rbody S K T sigma option_type = 1/100 := by
  have hTle : ¬ T ≤ 0 := not_le.mpr hT
  have hraise : bsRaises S K sigma = true := by
    unfold bsRaises
    rcases hdeg with h | h
    · subst h; simp
    · subst h; simp
  refine ⟨?_, ?_, ?_, ?_, ?_⟩
  · unfold calculate_delta
    rw [if_neg hTle, if_pos hraise]
    split <;> norm_num
  · unfold calculate_gamma
    rw [if_neg hTle, if_pos hraise]
  · unfold calculate_theta
    rw [if_neg hTle, if_pos hraise]
  · unfold calculate_vega
    rw [if_neg hTle, if_pos hraise]
  · unfold calculate_rho
    rw [if_neg hTle, if_pos hraise]

/-- Witness for the amended C4 at `S = 100, K = 100, T = 30, sigma = 0`
(bodies instantiated with constants): all five fallback constants appear. -/
theorem C4_greeks_fallback_amended_witness :
    calculate_delta (fun _ _ _ _ => 7) 100 100 30 0 "call" = 1/2
    ∧ calculate_gamma (fun _ _ _ _ => 7) 100 100 30 0 = 1/100
    ∧ calculate_theta (fun _ _ _ _ _ => 7) 100 100 30 0 "call" = -(1/20)
    ∧ calculate_vega (fun _ _ _ _ => 7) 100 100 30 0 = 3/20
    ∧ calculate_rho (fun _ _ _ _ _ => 7) 100 100 30 0 "call" = 1/100 := by
  have h := C4_greeks_fallback_amended (fun _ _ _ _ => 7) (fun _ _ _ _ => 7)
    (fun _ _ _ _ => 7) (fun _ _ _ _ _ => 7) (fun _ _ _ _ _ => 7)
    100 100 30 0 "call" (by norm_num) (by norm_num) (Or.inl rfl)
  refine ⟨?_, h.2.1, h.2.2.1, h.2.2.2.1, h.2.2.2.2⟩
  have h1 := h.1
  simpa using h1

/-- C10: `calculate_delta` always returns a value in `[-1, 1]`; in `[0, 1]`
when the side is "call" and in `[-1, 0]` when the side is "put" (any string
other than "call" takes the put branches), across all three code paths
(`T <= 0` step function, Black-Scholes branch, exception fallback) — under
the scipy guarantee that `norm.cdf` takes values in `[0, 1]`, stated here as
a hypothesis on the abstracted body. -/
theorem C10_delta_bounded
    (cdfd1 : ℚ → ℚ → ℚ → ℚ → ℚ)
    (hcdf : ∀ S K T sigma, 0 ≤ cdfd1 S K T sigma ∧ cdfd1 S K T sigma ≤ 1)
    (S K T sigma : ℚ) (option_type : String) :
    (option_type = "call" →
      0 ≤ calculate_delta cdfd1 S K T sigma option_type
      ∧ calculate_delta cdfd1 S K T sigma option_type ≤ 1)
    ∧ (option_type = "put" →
      -1 ≤ calculate_delta cdfd1 S K T sigma option_type
      ∧ calculate_delta cdfd1 S K T sigma option_type ≤ 0)
    ∧ (-1 ≤ calculate_delta cdfd1 S K T sigma option_type
      ∧ calculate_delta cdfd1 S K T sigma option_type ≤ 1) := by
  have hmain : (option_type = "call" →
      0 ≤ calculate_delta cdfd1 S K T sigma option_type
      ∧ calculate_delta cdfd1 S K T sigma option_type ≤ 1)
    ∧ (option_type ≠ "call" →
      -1 ≤ calculate_delta cdfd1 S K T sigma option_type
      ∧ calculate_delta cdfd1 S K T sigma option_type ≤ 0) := by
    constructor
    · intro hc
      unfold calculate_delta
      rw [if_pos hc, if_pos hc]
      obtain ⟨h0, h1⟩ := hcdf S K T sigma
      split
      · split <;> norm_num
      · split
        · norm_num
        · exact ⟨h0, h1⟩
    · intro hc
      unfold calculate_delta
      rw [if_neg hc, if_neg hc]
      obtain ⟨h0, h1⟩ := hcdf S K T sigma
      split
      · split <;> norm_num
      · split
        · norm_num
        · constructor <;> linarith
  refine ⟨hmain.1, ?_, ?_⟩
  · intro hput
    exact hmain.2 (by rw [hput]; decide)
  · by_cases hc : option_type = "call"
    · obtain ⟨h0, h1⟩ := hmain.1 hc
      exact ⟨by linarith, h1⟩
    · obtain ⟨h0, h1⟩ := hmain.2 hc
      exact ⟨h0, by linarith⟩

/-- Witness for C10 with `cdfd1` the constant `1/2` (a legal CDF value) at
`S = 100, K = 90, T = 30, sigma = 0.2`, side "put". -/
theorem C10_delta_bounded_witness :
    -1 ≤ calculate_delta (fun _ _ _ _ => 1/2) 100 90 30 (1/5) "put"
    ∧ calculate_delta (fun _ _ _ _ => 1/2) 100 90 30 (1/5) "put" ≤ 0 := by
  exact (C10_delta_bounded (fun _ _ _ _ => 1/2)
    (fun _ _ _ _ => by norm_num) 100 90 30 (1/5) "put").2.1 rfl

/-! ## Regime scorers

The repository carries two divergent iterations of
`calculate_iron_condor_score`: the one in app.py (history guard `< 20`,
required-column/NaN guard, thresholds per spec section 4.3) and the one in
src/analysis.py (history guard `< 5`, per-column defaults, different
thresholds and labels).  Both are embedded.  A scorer reads only `len(df)`
and the latest row, so the embedding takes the bar count and that row; a
row field is `none` when the column is absent (for the app.py scorer, which
treats the two identically, `none` also covers a NaN cell). -/

/-- The latest indicator row as read by the scorers. -/
structure ScoreRow where
  rsi : Option ℚ
  bbLower : Option ℚ
  bbUpper : Option ℚ
  bbWidth : Option ℚ
  atrPct : Option ℚ
  macd : Option ℚ
  deriving DecidableEq, Repr

/-- The five labels of the spec's priority table (section 4.3). -/
inductive SpecSignal where
  | strongEntry
  | entry
  | exitAvoid
  | caution
  | neutral
  deriving DecidableEq, Repr

/-- Modelled from the spec: the signal classification table of section 4.3,
evaluated in priority order, first match wins. -/
def specTable (entry risk : ℕ) : SpecSignal :=
  if 6 ≤ entry ∧ risk ≤ 3 then .strongEntry
  else if 4 ≤ entry ∧ risk ≤ 4 then .entry
  else if 6 ≤ risk then .exitAvoid
  else if 5 ≤ risk then .caution
  else .neutral

/-- The strings app.py prints for the spec labels (STRONG_ENTRY is rendered
"STRONG ENTRY", EXIT_AVOID is rendered "EXIT / AVOID"). -/
def labelOf : SpecSignal → String
  | .strongEntry => "STRONG ENTRY"
  | .entry => "ENTRY"
  | .exitAvoid => "EXIT / AVOID"
  | .caution => "CAUTION"
  | .neutral => "NEUTRAL"

namespace App

/-- The signal if-chain of app.py lines 1181-1191. -/
def signalFromScores (entry_score risk_score : ℕ) : String :=
  if 6 ≤ entry_score ∧ risk_score ≤ 3 then "STRONG ENTRY"
  else if 4 ≤ entry_score ∧ risk_score ≤ 4 then "ENTRY"
  else if 6 ≤ risk_score then "EXIT / AVOID"
  else if 5 ≤ risk_score then "CAUTION"
  else "NEUTRAL"

/-- `calculate_iron_condor_score` of app.py.  Each rule contributes an
(entry, risk) pair; the final result is `(entry_score, risk_score, signal)`.
The Python `except` branch is unreachable in the model (no exceptions
occur), and the inner `pd.notna` tests mirror the source even though the
required-column guard already ensures them. -/
def calculate_iron_condor_score (n : ℕ) (latest : ScoreRow) (current_price : ℚ) :
    ℕ × ℕ × String :=
  if n = 0 ∨ n < 20 then (0, 9, "NEUTRAL")
  else if latest.rsi = none ∨ latest.bbLower = none ∨ latest.bbUpper = none
      ∨ latest.bbWidth = none ∨ latest.atrPct = none ∨ latest.macd = none then
    (0, 9, "NEUTRAL")
  else
    let s1 : ℕ × ℕ :=
      match latest.rsi with
      | some rsi =>
        if 45 ≤ rsi ∧ rsi ≤ 55 then (2, 0)
        else if 40 ≤ rsi ∧ rsi ≤ 60 then (1, 0)
        else if rsi < 30 ∨ 70 < rsi then (0, 2)
        else (0, 0)
      | none => (0, 0)
    let s2 : ℕ × ℕ :=
      match latest.bbLower, latest.bbUpper with
      | some lo, some hi =>
        let bb_range := hi - lo
        if 0 < bb_range then
          let bb_position := (current_price - lo) / bb_range
          if 0.4 ≤ bb_position ∧ bb_position ≤ 0.6 then (2, 0)
          else if 0.3 ≤ bb_position ∧ bb_position ≤ 0.7 then (1, 0)
          else if bb_position < 0.2 ∨ 0.8 < bb_position then (0, 2)
          else (0, 0)
        else (0, 0)
      | _, _ => (0, 0)
    let s3 : ℕ × ℕ :=
      match latest.bbWidth with
      | some w =>
        if w < 5 then (2, 0)
        else if w < 7 then (1, 0)
        else if 10 < w then (0, 2)
        else (0, 0)
      | none => (0, 0)
    let s4 : ℕ × ℕ :=
      match latest.atrPct with
      | some a =>
        if a < 0.8 then (2, 0)
        else if a < 1.2 then (1, 0)
        else if 2 < a then (0, 2)
        else (0, 0)
      | none => (0, 0)
    let s5 : ℕ × ℕ :=
      match latest.macd with
      | some m =>
        if 0 < current_price then
          let macd_strength := |m / current_price| * 100
          if macd_strength < 0.3 then (1, 0)
          else if 1 < macd_strength then (0, 1)
          else (0, 0)
        else (0, 0)
      | none => (0, 0)
    let entry_score := s1.1 + s2.1 + s3.1 + s4.1 + s5.1
    let risk_score := s1.2 + s2.2 + s3.2 + s4.2 + s5.2
    (entry_score, risk_score, signalFromScores entry_score risk_score)

end App

namespace Analysis

/-- The signal if-chain of src/analysis.py lines 84-91 (different
thresholds and labels than app.py). -/
def signalFromScores (entry risk : ℕ) : String :=
  if 5 ≤ entry ∧ risk ≤ 3 then "STRONG ENTRY"
  else if 3 ≤ entry then "ENTRY"
  else if 5 ≤ risk then "CAUTION / AVOID"
  else "NEUTRAL"

/-- `calculate_iron_condor_score` of src/analysis.py: history guard `< 5`,
`latest.get('RSI', 50)` defaulting, membership tests for the other columns,
and its own threshold set. -/
def calculate_iron_condor_score (n : ℕ) (latest : ScoreRow) (current_price : ℚ) :
    ℕ × ℕ × String :=
  if n < 5 then (0, 9, "NEUTRAL")
  else
    let rsi := latest.rsi.getD 50
    let s1 : ℕ × ℕ :=
      if 45 ≤ rsi ∧ rsi ≤ 55 then (2, 0)
      else if 40 ≤ rsi ∧ rsi ≤ 60 then (1, 0)
      else if rsi < 35 ∨ 65 < rsi then (0, 2)
      else (0, 0)
    let s2 : ℕ × ℕ :=
      match latest.bbLower, latest.bbUpper with
      | some lo, some hi =>
        let bb_range := hi - lo
        if 0 < bb_range then
          let pos := (current_price - lo) / bb_range
          if 0.4 ≤ pos ∧ pos ≤ 0.6 then (2, 0)
          else if 0.3 ≤ pos ∧ pos ≤ 0.7 then (1, 0)
          else if pos < 0.25 ∨ 0.75 < pos then (0, 2)
          else (0, 0)
        else (0, 0)
      | _, _ => (0, 0)
    let s3 : ℕ × ℕ :=
      match latest.bbWidth with
      | some w => if w < 5 then (2, 0) else if 10 < w then (0, 2) else (0, 0)
      | none => (0, 0)
    let s4 : ℕ × ℕ :=
      match latest.macd with
      | some m => if |m| < 1 then (1, 0) else if 3 < |m| then (0, 1) else (0, 0)
      | none => (0, 0)
    let s5 : ℕ × ℕ :=
      match latest.atrPct with
      | some a => if a < 1 then (1, 0) else if 2.5 < a then (0, 1) else (0, 0)
      | none => (0, 0)
    let entry := s1.1 + s2.1 + s3.1 + s4.1 + s5.1
    let risk := s1.2 + s2.2 + s3.2 + s4.2 + s5.2
    (entry, risk, signalFromScores entry risk)

end Analysis

theorem app_signal_eq_specTable (e r : ℕ) :
    App.signalFromScores e r = labelOf (specTable e r) := by
  unfold App.signalFromScores specTable labelOf
  by_cases h1 : 6 ≤ e ∧ r ≤ 3
  · simp [h1]
  · by_cases h2 : 4 ≤ e ∧ r ≤ 4
    · simp [h1, h2]
    · by_cases h3 : 6 ≤ r
      · simp [h1, h2, h3]
      · by_cases h4 : 5 ≤ r
        · simp [h1, h2, h3, h4]
        · simp [h1, h2, h3, h4]

/-- The latest row used by the C5 counterexample: RSI 50, price mid-band,
band width 7, MACD 0.5, ATR% 1.5, giving the src/analysis.py scorer
`entry = 5, risk = 0`. -/
def row5 : ScoreRow :=
  { rsi := some 50
    bbLower := some 95
    bbUpper := some 105
    bbWidth := some 7
    atrPct := some (3/2)
    macd := some (1/2) }

/-- C5 counterexample: with 20 bars of history (sufficient) and a fully
populated indicator row, the src/analysis.py scorer returns scores
`(5, 0)` with signal "STRONG ENTRY", while the claim's priority table at
`(5, 0)` gives ENTRY — so the repository's signal is not the claimed
function of the returned scores. -/
theorem C5_signal_table_counterexample :
    Analysis.calculate_iron_condor_score 20 row5 100 = (5, 0, "STRONG ENTRY")
    ∧ labelOf (specTable 5 0) = "ENTRY"
    ∧ "STRONG ENTRY" ≠ "ENTRY" := by
  refine ⟨?_, by decide, by decide⟩
  norm_num [Analysis.calculate_iron_condor_score, Analysis.signalFromScores, row5, abs]

/-- C5 (amended): the app.py scorer does classify by the claimed priority
table: for every input with sufficient history (at least 20 bars) and all
required indicators present, its returned signal equals the table of
section 4.3 applied to its returned scores; the src/analysis.py variant
instead uses thresholds (entry ≥ 5 and risk ≤ 3 → STRONG ENTRY; entry ≥ 3 →
ENTRY; risk ≥ 5 → CAUTION / AVOID; else NEUTRAL), as the counterexample
shows. -/
theorem C5_signal_table_amended (n : ℕ) (latest : ScoreRow) (price : ℚ)
    (hn : ¬ (n = 0 ∨ n < 20))
    (hmiss : ¬ (latest.rsi = none ∨ latest.bbLower = none ∨ latest.bbUpper = none
      ∨ latest.bbWidth = none ∨ latest.atrPct = none ∨ latest.macd = none)) :
    (App.calculate_iron_condor_score n latest price).2.2
      = labelOf (specTable (App.calculate_iron_condor_score n latest price).1
          (App.calculate_iron_condor_score n latest price).2.1) := by
  unfold App.calculate_iron_condor_score
  rw [if_neg hn, if_neg hmiss]
  exact app_signal_eq_specTable _ _

/-- Witness for the amended C5 at 25 bars and the row of `row5`. -/
theorem C5_signal_table_amended_witness :
    (App.calculate_iron_condor_score 25 row5 100).2.2
      = labelOf (specTable (App.calculate_iron_condor_score 25 row5 100).1
          (App.calculate_iron_condor_score 25 row5 100).2.1) := by
  exact C5_signal_table_amended 25 row5 100 (by decide) (by decide)

/-- The latest row used by the C7 counterexample: every indicator present
and favourable, so the src/analysis.py scorer gives `entry = 8, risk = 0`. -/
def rowG : ScoreRow :=
  { rsi := some 50
    bbLower := some 95
    bbUpper := some 105
    bbWidth := some 4
    atrPct := some (1/2)
    macd := some (1/2) }

/-- C7 counterexample: with only 10 bars of history (fewer than 20) the
src/analysis.py scorer does not return the maximally cautious default
`(0, 9, NEUTRAL)`; it computes `(8, 0, "STRONG ENTRY")` (its own history
guard is `< 5`). -/
theorem C7_cautious_default_counterexample :
    Analysis.calculate_iron_condor_score 10 rowG 100 = (8, 0, "STRONG ENTRY")
    ∧ ((8, 0, "STRONG ENTRY") : ℕ × ℕ × String) ≠ (0, 9, "NEUTRAL") := by
  refine ⟨?_, by decide⟩
  norm_num [Analysis.calculate_iron_condor_score, Analysis.signalFromScores, rowG, abs]

/-- C7 (amended): the app.py scorer does return exactly `(0, 9, NEUTRAL)`
whenever the history is shorter than 20 bars or any required indicator is
missing/NaN in the latest row; the src/analysis.py variant only guards
histories shorter than 5 bars and otherwise scores the row, defaulting a
missing RSI to 50 and skipping other missing columns, as the counterexample
shows. -/
theorem C7_cautious_default_amended (n : ℕ) (latest : ScoreRow) (price : ℚ)
    (h : n < 20 ∨ latest.rsi = none ∨ latest.bbLower = none ∨ latest.bbUpper = none
      ∨ latest.bbWidth = none ∨ latest.atrPct = none ∨ latest.macd = none) :
    App.calculate_iron_condor_score n latest price = (0, 9, "NEUTRAL") := by
  unfold App.calculate_iron_condor_score
  by_cases hn : n = 0 ∨ n < 20
  · rw [if_pos hn]
  · rw [if_neg hn]
    have hmiss : latest.rsi = none ∨ latest.bbLower = none ∨ latest.bbUpper = none
        ∨ latest.bbWidth = none ∨ latest.atrPct = none ∨ latest.macd = none := by
      rcases h with h | h
      · exact absurd (Or.inr h) hn
      · exact h
    rw [if_pos hmiss]

/-- Witness for the amended C7: 3 bars of history force the default. -/
theorem C7_cautious_default_amended_witness :
    App.calculate_iron_condor_score 3 rowG 100 = (0, 9, "NEUTRAL") := by
  exact C7_cautious_default_amended 3 rowG 100 (Or.inl (by norm_num))

/-! ## Strike selector (src/analysis.py, `find_iron_condor_strikes`)

Option quotes are dicts; only the keys the selector reads are modelled
(`type`, `strike`, `bid`, `ask`, `greeks.delta`).  A quote may lack the
`greeks` entry, or have one without a `delta` key, matching the two-level
`x.get('greeks', {}).get('delta', default)` accesses. -/

/-- The `greeks` sub-dict (only `delta` is read by the selector). -/
structure GreeksData where
  delta : Option ℚ
  deriving DecidableEq, Repr

/-- An option-chain row, restricted to the keys the selector reads. -/
structure OptionQuote where
  type : String
  strike : ℚ
  bid : ℚ
  ask : ℚ
  greeks : Option GreeksData
  deriving DecidableEq, Repr

/-- `x.get('greeks', {}).get('delta', d)`. -/
def deltaOr (d : ℚ) (q : OptionQuote) : ℚ :=
  match q.greeks with
  | some g => g.delta.getD d
  | none => d

/-- Python `min(items, key=f)` on a possibly empty list: the first element
attaining the minimal key (later elements replace the best only on a
strictly smaller key, as in CPython). -/
def minByKey {α : Type} (f : α → ℚ) : List α → Option α
  | [] => none
  | x :: xs => some (xs.foldl (fun b a => if f a < f b then a else b) x)

/-- Insertion step of a stable insertion sort. -/
def insSorted {α : Type} (le : α → α → Bool) (a : α) : List α → List α
  | [] => [a]
  | b :: bs => if le a b then a :: b :: bs else b :: insSorted le a bs

/-- Python `sorted(xs, key=...)` (a stable sort; only the sortedness and
permutation facts matter to the claims). -/
def sortL {α : Type} (le : α → α → Bool) (xs : List α) : List α :=
  xs.foldr (insSorted le) []

theorem mem_insSorted {α : Type} (le : α → α → Bool) (a x : α) :
    ∀ l : List α, x ∈ insSorted le a l ↔ x = a ∨ x ∈ l := by
  intro l
  induction l with
  | nil => simp [insSorted]
  | cons b bs ih =>
    unfold insSorted
    split
    · simp
    · simp [ih]
      tauto

theorem mem_sortL {α : Type} (le : α → α → Bool) (x : α) :
    ∀ l : List α, x ∈ sortL le l ↔ x ∈ l := by
  intro l
  induction l with
  | nil => simp [sortL]
  | cons b bs ih =>
    unfold sortL at ih ⊢
    rw [List.foldr_cons, mem_insSorted]
    simp [ih]

theorem foldl_min_mem {α : Type} (f : α → ℚ) :
    ∀ (l : List α) (x : α),
      l.foldl (fun b a => if f a < f b then a else b) x = x
      ∨ l.foldl (fun b a => if f a < f b then a else b) x ∈ l := by
  intro l
  induction l with
  | nil => intro x; left; rfl
  | cons a as ih =>
    intro x
    rw [List.foldl_cons]
    rcases ih (if f a < f x then a else x) with h | h
    · rw [h]
      split
      · right; simp
      · left; rfl
    · right; simp [h]

theorem minByKey_mem {α : Type} (f : α → ℚ) (l : List α) (y : α)
    (h : minByKey f l = some y) : y ∈ l := by
  cases l with
  | nil => simp [minByKey] at h
  | cons x xs =>
    unfold minByKey at h
    cases h
    rcases foldl_min_mem f xs x with h | h
    · rw [h]; simp
    · simp [h]

/-- An iron-condor candidate as returned by the selector. -/
structure IronCondorCandidate where
  short_call : OptionQuote
  long_call : OptionQuote
  short_put : OptionQuote
  long_put : OptionQuote
  max_profit : ℚ
  max_loss : ℚ
  pop : ℚ
  breakeven_upper : ℚ
  breakeven_lower : ℚ
  deriving DecidableEq, Repr

namespace Analysis

/-- `find_iron_condor_strikes` of src/analysis.py.  The option chain is the
expiration-keyed dict, modelled as an association list. -/
def find_iron_condor_strikes (options_data : List (String × List OptionQuote))
    (expiration : String) (current_price target_delta : ℚ) :
    Option IronCondorCandidate :=
  match options_data.lookup expiration with
  | none => none
  | some opts =>
    let calls := opts.filter (fun o => decide (o.type = "call" ∧ current_price < o.strike))
    let puts := opts.filter (fun o => decide (o.type = "put" ∧ o.strike < current_price))
    if calls.isEmpty || puts.isEmpty then none
    else
      let callsS := sortL (fun a b => decide (a.strike ≤ b.strike)) calls
      let putsS := sortL (fun a b => decide (b.strike ≤ a.strike)) puts
      match minByKey (fun x => |(|deltaOr 0 x| - target_delta)|) callsS,
            minByKey (fun x => |(|deltaOr 0 x| - target_delta)|) putsS with
      | some short_call, some short_put =>
        match callsS.find? (fun c => decide (short_call.strike < c.strike)),
              putsS.find? (fun p => decide (p.strike < short_put.strike)) with
        | some long_call, some long_put =>
          let credit := (short_call.bid + short_put.bid - long_call.ask - long_put.ask) * 100
          let width := max (long_call.strike - short_call.strike)
            (short_put.strike - long_put.strike)
          let max_loss := width * 100 - credit
          let pop := round1 ((1 - |deltaOr (3/10) short_call|
            - |deltaOr (3/10) short_put|) * 100)
          let credit_per_share := credit / 100
          some { short_call := short_call
                 long_call := long_call
                 short_put := short_put
                 long_put := long_put
                 max_profit := max credit 0
                 max_loss := max max_loss 0
                 pop := pop
                 breakeven_upper := round2 (short_call.strike + credit_per_share)
                 breakeven_lower := round2 (short_put.strike - credit_per_share) }
        | _, _ => none
      | _, _ => none

end Analysis

/-- Short call of the well-behaved C3/C8 witness chain. -/
def gcS : OptionQuote := ⟨"call", 105, 2, 11/5, some ⟨some (11/50)⟩⟩

/-- Long call of the witness chain. -/
def gcL : OptionQuote := ⟨"call", 110, 1/2, 1, some ⟨some (1/10)⟩⟩

/-- Short put of the witness chain. -/
def gpS : OptionQuote := ⟨"put", 95, 2, 11/5, some ⟨some (-(11/50))⟩⟩

/-- Long put of the witness chain. -/
def gpL : OptionQuote := ⟨"put", 90, 1/2, 1, some ⟨some (-(1/10))⟩⟩

/-- A well-behaved chain: net credit 200, whole-cent strikes. -/
def chainGood : List (String × List OptionQuote) :=
  [("2025-06-20", [gcS, gcL, gpS, gpL])]

/-- The candidate the selector returns on `chainGood` at delta 0.2. -/
def candGood : IronCondorCandidate :=
  { short_call := gcS
    long_call := gcL
    short_put := gpS
    long_put := gpL
    max_profit := 200
    max_loss := 300
    pop := 56
    breakeven_upper := 107
    breakeven_lower := 93 }

theorem find_chainGood :
    Analysis.find_iron_condor_strikes chainGood "2025-06-20" 100 (1/5) = some candGood := by
  norm_num [Analysis.find_iron_condor_strikes, chainGood, gcS, gcL, gpS, gpL, candGood,
    List.lookup, List.filter, List.find?, sortL, insSorted, minByKey, deltaOr,
    round1, round2, roundHalfEven, abs]

/-- Quotes of the C3 counterexample chain (all bids 0, asks 2: net debit). -/
def x1 : OptionQuote := ⟨"call", 101, 0, 2, some ⟨some (1/5)⟩⟩

/-- Long call of the C3 counterexample chain. -/
def x2 : OptionQuote := ⟨"call", 103, 0, 2, some ⟨some (1/10)⟩⟩

/-- Short put of the C3 counterexample chain. -/
def x3 : OptionQuote := ⟨"put", 99, 0, 2, some ⟨some (-(1/5))⟩⟩

/-- Long put of the C3 counterexample chain. -/
def x4 : OptionQuote := ⟨"put", 97, 0, 2, some ⟨some (-(1/10))⟩⟩

/-- A chain whose best candidate nets a 400 debit. -/
def chainC3x : List (String × List OptionQuote) :=
  [("2025-06-20", [x1, x2, x3, x4])]

/-- C3 counterexample: on `chainC3x` (spot 100, target delta 0.2) the
selector returns a candidate whose breakeven_upper is 97, which is not
above the spot price 100 (the negative net credit of 400 pulls the upper
breakeven below the spot): the claimed invariant
`breakeven_lower < spot < breakeven_upper` fails. -/
theorem C3_strike_selector_counterexample :
    (Analysis.find_iron_condor_strikes chainC3x "2025-06-20" 100 (1/5)).map
        IronCondorCandidate.breakeven_upper = some 97
    ∧ ¬ ((100 : ℚ) < 97) := by
  constructor
  · norm_num [Analysis.find_iron_condor_strikes, chainC3x, x1, x2, x3, x4,
      List.lookup, List.filter, List.find?, sortL, insSorted, minByKey, deltaOr,
      round1, round2, roundHalfEven, abs]
  · norm_num

/-- C3 (amended): every candidate the selector returns satisfies the strike
orderings `short_call.strike < long_call.strike`,
`short_put.strike > long_put.strike`,
`short_call.strike > spot > short_put.strike`, and `max_loss ≥ 0`,
`max_profit ≥ 0`; the breakeven bounds
`breakeven_lower < spot < breakeven_upper` additionally hold whenever the
four legs net a nonnegative credit and the short strikes are quoted in
whole cents (they can fail on a net debit, as the counterexample shows). -/
theorem C3_strike_selector_amended
    (options_data : List (String × List OptionQuote)) (expiration : String)
    (current_price target_delta : ℚ) (c : IronCondorCandidate)
    (h : Analysis.find_iron_condor_strikes options_data expiration
        current_price target_delta = some c) :
    current_price < c.short_call.strike
    ∧ c.short_put.strike < current_price
    ∧ c.short_call.strike < c.long_call.strike
    ∧ c.long_put.strike < c.short_put.strike
    ∧ 0 ≤ c.max_profit
    ∧ 0 ≤ c.max_loss
    ∧ (0 ≤ c.short_call.bid + c.short_put.bid - c.long_call.ask - c.long_put.ask →
        ∀ m : ℤ, c.short_call.strike * 100 = m →
        ∀ k : ℤ, c.short_put.strike * 100 = k →
          c.breakeven_lower < current_price ∧ current_price < c.breakeven_upper) := by
  unfold Analysis.find_iron_condor_strikes at h
  split at h
  · cases h
  · rename_i opts hlook
    dsimp only at h
    split at h
    · cases h
    · split at h
      · rename_i short_call short_put hmbc hmbp
        split at h
        · rename_i long_call long_put hflc hflp
          injection h with h2
          subst h2
          have hscP : short_call ∈ opts.filter
              (fun o => decide (o.type = "call" ∧ current_price < o.strike)) :=
            (mem_sortL _ _ _).mp (minByKey_mem _ _ _ hmbc)
          have hsc := (List.mem_filter.mp hscP).2
          simp only [decide_eq_true_eq] at hsc
          have hspP : short_put ∈ opts.filter
              (fun o => decide (o.type = "put" ∧ o.strike < current_price)) :=
            (mem_sortL _ _ _).mp (minByKey_mem _ _ _ hmbp)
          have hsp := (List.mem_filter.mp hspP).2
          simp only [decide_eq_true_eq] at hsp
          have hlc := List.find?_some hflc
          simp only [decide_eq_true_eq] at hlc
          have hlp := List.find?_some hflp
          simp only [decide_eq_true_eq] at hlp
          refine ⟨hsc.2, hsp.2, hlc, hlp, le_max_right _ _, le_max_right _ _, ?_⟩
          intro hcred m hm k hk
          dsimp only at hcred hm hk ⊢
          constructor
          · have harg : (short_put.strike -
                ((short_call.bid + short_put.bid - long_call.ask - long_put.ask) * 100)
                  / 100) * 100 ≤ (k : ℚ) := by
              rw [← hk]
              have hd : ((short_call.bid + short_put.bid - long_call.ask - long_put.ask)
                  * 100) / 100
                  = short_call.bid + short_put.bid - long_call.ask - long_put.ask := by
                ring
              rw [hd]
              nlinarith [hcred]
            have h2 := roundHalfEven_le harg
            have h3 : ((roundHalfEven ((short_put.strike -
                ((short_call.bid + short_put.bid - long_call.ask - long_put.ask) * 100)
                  / 100) * 100) : ℤ) : ℚ) ≤ (k : ℚ) := by
              exact_mod_cast h2
            have hspk : short_put.strike = (k : ℚ) / 100 := by
              rw [eq_div_iff (by norm_num : (100:ℚ) ≠ 0)]
              exact hk
            unfold round2
            have hlt : (k : ℚ) / 100 < current_price := by
              rw [← hspk]; exact hsp.2
            linarith
          · have harg : (m : ℚ) ≤ (short_call.strike +
                ((short_call.bid + short_put.bid - long_call.ask - long_put.ask) * 100)
                  / 100) * 100 := by
              rw [← hm]
              have hd : ((short_call.bid + short_put.bid - long_call.ask - long_put.ask)
                  * 100) / 100
                  = short_call.bid + short_put.bid - long_call.ask - long_put.ask := by
                ring
              rw [hd]
              nlinarith [hcred]
            have h2 := le_roundHalfEven harg
            have h3 : (m : ℚ) ≤ ((roundHalfEven ((short_call.strike +
                ((short_call.bid + short_put.bid - long_call.ask - long_put.ask) * 100)
                  / 100) * 100) : ℤ) : ℚ) := by
              exact_mod_cast h2
            have hsck : short_call.strike = (m : ℚ) / 100 := by
              rw [eq_div_iff (by norm_num : (100:ℚ) ≠ 0)]
              exact hm
            unfold round2
            have hlt : current_price < (m : ℚ) / 100 := by
              rw [← hsck]; exact hsc.2
            linarith
        · cases h
      · cases h

/-- Witness for the amended C3 on `chainGood`: the returned candidate has
whole-cent short strikes and nonnegative net credit, and all the bounds
hold (breakevens 93 and 107 around the spot 100). -/
theorem C3_strike_selector_amended_witness :
    candGood.breakeven_lower < 100 ∧ (100 : ℚ) < candGood.breakeven_upper := by
  have h := C3_strike_selector_amended chainGood "2025-06-20" 100 (1/5) candGood
    find_chainGood
  exact h.2.2.2.2.2.2 (by norm_num [candGood, gcS, gcL, gpS, gpL])
    10500 (by norm_num [candGood, gcS]) 9500 (by norm_num [candGood, gpS])

/-- The probability-of-profit expression the selector computes: one minus
the two short-leg delta magnitudes (with 0.3 substituted for a missing
delta), times 100, rounded to one decimal — and not clamped. -/
def popFormula (short_call short_put : OptionQuote) : ℚ :=
  round1 ((1 - |deltaOr (3/10) short_call| - |deltaOr (3/10) short_put|) * 100)

/-- Quotes of the C8 counterexample chain: deep in-the-money deltas 0.9. -/
def y1 : OptionQuote := ⟨"call", 105, 1, 1, some ⟨some (9/10)⟩⟩

/-- Long call of the C8 counterexample chain. -/
def y2 : OptionQuote := ⟨"call", 110, 1, 1, some ⟨some (19/20)⟩⟩

/-- Short put of the C8 counterexample chain. -/
def y3 : OptionQuote := ⟨"put", 95, 1, 1, some ⟨some (-(9/10))⟩⟩

/-- Long put of the C8 counterexample chain. -/
def y4 : OptionQuote := ⟨"put", 90, 1, 1, some ⟨some (-(19/20))⟩⟩

/-- A chain whose short legs both carry delta magnitude 0.9. -/
def chainC8x : List (String × List OptionQuote) :=
  [("2025-06-20", [y1, y2, y3, y4])]

/-- C8 counterexample: on `chainC8x` the selector returns probability of
profit -80, which is negative — the claimed clamp to [0, 100] does not
exist in the code (a clamped value would be 0). -/
theorem C8_pop_clamp_counterexample :
    (Analysis.find_iron_condor_strikes chainC8x "2025-06-20" 100 (1/5)).map
        IronCondorCandidate.pop = some (-80)
    ∧ ¬ ((0 : ℚ) ≤ -80) := by
  constructor
  · norm_num [Analysis.find_iron_condor_strikes, chainC8x, y1, y2, y3, y4,
      List.lookup, List.filter, List.find?, sortL, insSorted, minByKey, deltaOr,
      round1, round2, roundHalfEven, abs]
  · norm_num

/-- C8 (amended): every candidate's probability_of_profit equals
`round((1 - |short_call.delta| - |short_put.delta|) * 100, 1)` with 0.3
substituted for a missing delta; it never exceeds 100, but it is NOT
clamped below at 0 and can be negative, as the counterexample shows. -/
theorem C8_pop_formula_amended
    (options_data : List (String × List OptionQuote)) (expiration : String)
    (current_price target_delta : ℚ) (c : IronCondorCandidate)
    (h : Analysis.find_iron_condor_strikes options_data expiration
        current_price target_delta = some c) :
    c.pop = popFormula c.short_call c.short_put ∧ c.pop ≤ 100 := by
  unfold Analysis.find_iron_condor_strikes at h
  split at h
  · cases h
  · rename_i opts hlook
    dsimp only at h
    split at h
    · cases h
    · split at h
      · rename_i short_call short_put hmbc hmbp
        split at h
        · rename_i long_call long_put hflc hflp
          injection h with h2
          subst h2
          constructor
          · rfl
          · show round1 ((1 - |deltaOr (3/10) short_call|
              - |deltaOr (3/10) short_put|) * 100) ≤ 100
            have ha : 0 ≤ |deltaOr (3/10) short_call| := abs_nonneg _
            have hb : 0 ≤ |deltaOr (3/10) short_put| := abs_nonneg _
            have harg : (1 - |deltaOr (3/10) short_call|
                - |deltaOr (3/10) short_put|) * 100 * 10 ≤ ((1000 : ℤ) : ℚ) := by
              push_cast
              nlinarith
            have h2 := roundHalfEven_le harg
            have h3 : ((roundHalfEven ((1 - |deltaOr (3/10) short_call|
                - |deltaOr (3/10) short_put|) * 100 * 10) : ℤ) : ℚ) ≤ 1000 := by
              exact_mod_cast h2
            unfold round1
            linarith
        · cases h
      · cases h

/-- Witness for the amended C8 on `chainGood`: pop is 56, equal to the
formula value, and at most 100. -/
theorem C8_pop_formula_amended_witness :
    candGood.pop = popFormula candGood.short_call candGood.short_put
    ∧ candGood.pop ≤ 100 := by
  exact C8_pop_formula_amended chainGood "2025-06-20" 100 (1/5) candGood find_chainGood

/-- Short call without a greeks entry, used for C9. -/
def n1 : OptionQuote := ⟨"call", 105, 1, 6/5, none⟩

/-- Long call of the C9 chain. -/
def n2 : OptionQuote := ⟨"call", 110, 1/2, 3/5, some ⟨some (1/2)⟩⟩

/-- Short put of the C9 chain. -/
def n3 : OptionQuote := ⟨"put", 95, 4/5, 1, some ⟨some (-(1/4))⟩⟩

/-- Long put of the C9 chain. -/
def n4 : OptionQuote := ⟨"put", 90, 3/10, 2/5, some ⟨some (-(1/10))⟩⟩

/-- A chain whose delta-missing call wins the short-call selection. -/
def chain9 : List (String × List OptionQuote) :=
  [("2025-06-20", [n1, n2, n3, n4])]

/-- C9: a quote lacking a greeks entry (or a delta key) is given delta
magnitude 0 by the short-leg selection (`.get('greeks', {}).get('delta', 0)`)
but delta magnitude 0.3 by the probability-of-profit computation
(`.get('greeks', {}).get('delta', 0.3)`).  Concretely, on `chain9` the
greeks-less 105 call is selected as short call (selection key
|0 - 0.2| = 0.2 beats the 110 call's |0.5 - 0.2| = 0.3), yet the returned
pop is 45 = (1 - 0.3 - 0.25) x 100, using 0.3 for the very same quote
(the selection default 0 would have given 75). -/
theorem C9_inconsistent_delta_defaults :
    (∀ q : OptionQuote, q.greeks = none →
      deltaOr 0 q = 0 ∧ deltaOr (3/10) q = 3/10)
    ∧ (∀ (q : OptionQuote) (g : GreeksData), q.greeks = some g → g.delta = none →
      deltaOr 0 q = 0 ∧ deltaOr (3/10) q = 3/10)
    ∧ (Analysis.find_iron_condor_strikes chain9 "2025-06-20" 100 (1/5)).map
        (fun c => (c.short_call.greeks, c.pop)) = some (none, 45) := by
  refine ⟨?_, ?_, ?_⟩
  · intro q hq
    unfold deltaOr
    rw [hq]
    exact ⟨rfl, rfl⟩
  · intro q g hq hg
    unfold deltaOr
    rw [hq]
    dsimp only
    rw [hg]
    exact ⟨rfl, rfl⟩
  · norm_num [Analysis.find_iron_condor_strikes, chain9, n1, n2, n3, n4,
      List.lookup, List.filter, List.find?, sortL, insSorted, minByKey, deltaOr,
      round1, round2, roundHalfEven, abs]

/-- Witness for C9 on the concrete greeks-less quote `n1`: the selection
reads its delta as 0, the pop computation reads it as 0.3. -/
theorem C9_inconsistent_delta_defaults_witness :
    deltaOr 0 n1 = 0 ∧ deltaOr (3/10) n1 = 3/10 := by
  exact C9_inconsistent_delta_defaults.1 n1 rfl

/-! ## Indicator engine (src/analysis.py, `calculate_indicators`)

The frame is modelled by its three columns the function reads (`Close`,
`High`, `Low`); a cell of a derived column is `Option ℚ`, `none` standing
for NaN.  Pandas square roots (inside `rolling(...).std()`) are abstracted
by a function parameter `rsqrt`; every theorem quantifies over it.  Rational
division models float division (the claims never depend on the value at a
zero denominator, where floats give inf/NaN and the final `fillna(0)`
normalises the NaN case). -/

/-- The trailing window of width `w` ending at row `i` (expanding semantics
of `min_periods=1`). -/
def windowQ (w : ℕ) (xs : List ℚ) (i : ℕ) : List ℚ :=
  (xs.take (i + 1)).drop (i + 1 - w)

/-- `rolling(w, min_periods=1).mean()`. -/
def rollingMean (w : ℕ) (xs : List ℚ) : List ℚ :=
  (List.range xs.length).map (fun i =>
    let win := windowQ w xs i
    win.sum / (win.length : ℚ))

/-- `rolling(w, min_periods=1).std()` (sample std, `ddof=1`: a size-1
window yields NaN). -/
def rollingStd (rsqrt : ℚ → ℚ) (w : ℕ) (xs : List ℚ) : List (Option ℚ) :=
  (List.range xs.length).map (fun i =>
    let win := windowQ w xs i
    if win.length < 2 then none
    else
      let m := win.sum / (win.length : ℚ)
      some (rsqrt ((win.map (fun x => (x - m) ^ 2)).sum / ((win.length : ℚ) - 1))))

/-- `Series.diff()`: first row NaN. -/
def diffL (xs : List ℚ) : List (Option ℚ) :=
  (List.range xs.length).map (fun i =>
    if i = 0 then none else some (xs.getD i 0 - xs.getD (i - 1) 0))

/-- `Series.shift()`: previous row's value, first row NaN. -/
def shiftL (xs : List ℚ) : List (Option ℚ) :=
  (List.range xs.length).map (fun i =>
    if i = 0 then none else some (xs.getD (i - 1) 0))

/-- `delta.where(delta > 0, 0)`: a NaN comparison is false, so the NaN row
becomes 0. -/
def gainL (d : List (Option ℚ)) : List ℚ :=
  d.map (fun o => match o with
    | some x => if 0 < x then x else 0
    | none => 0)

/-- `-delta.where(delta < 0, 0)`. -/
def lossL (d : List (Option ℚ)) : List ℚ :=
  d.map (fun o => match o with
    | some x => if x < 0 then -x else 0
    | none => 0)

/-- `Series.replace(0, np.nan)`. -/
def replZeroNaN (xs : List ℚ) : List (Option ℚ) :=
  xs.map (fun x => if x = 0 then none else some x)

/-- `ewm(span, adjust=False).mean()` recursion after the seed. -/
def emaGo (a : ℚ) (prev : ℚ) : List ℚ → List ℚ
  | [] => []
  | x :: xs =>
    let v := a * x + (1 - a) * prev
    v :: emaGo a v xs

/-- `ewm(span=s, adjust=False, min_periods=1).mean()`: seeded at the first
value, smoothing factor 2/(s+1). -/
def emaL (s : ℕ) (xs : List ℚ) : List ℚ :=
  match xs with
  | [] => []
  | x :: rest => x :: emaGo (2 / ((s : ℚ) + 1)) x rest

/-- Row-wise max skipping NaN (as `concat(...).max(axis=1)` does). -/
def maxSkipNa (x : ℚ) : Option ℚ → ℚ
  | some y => max x y
  | none => x

/-- `DataFrame.bfill()` on one column. -/
def bfillL : List (Option ℚ) → List (Option ℚ)
  | [] => []
  | x :: xs =>
    let r := bfillL xs
    (match x with
     | some v => some v
     | none => r.headD none) :: r

/-- `DataFrame.ffill()` on one column, with the carried last value. -/
def ffillGo (carry : Option ℚ) : List (Option ℚ) → List (Option ℚ)
  | [] => []
  | x :: xs =>
    match x with
    | some v => some v :: ffillGo (some v) xs
    | none => carry :: ffillGo carry xs

/-- `DataFrame.ffill()` on one column. -/
def ffillL (xs : List (Option ℚ)) : List (Option ℚ) := ffillGo none xs

/-- `DataFrame.fillna(0)` on one column. -/
def fill0 (xs : List (Option ℚ)) : List (Option ℚ) :=
  xs.map (fun o => some (o.getD 0))

/-- The final `df.bfill().ffill().fillna(0)` per column. -/
def finalFill (xs : List (Option ℚ)) : List (Option ℚ) :=
  fill0 (ffillL (bfillL xs))

@[simp]
theorem rollingMean_length (w : ℕ) (xs : List ℚ) :
    (rollingMean w xs).length = xs.length := by simp [rollingMean]

@[simp]
theorem rollingStd_length (rsqrt : ℚ → ℚ) (w : ℕ) (xs : List ℚ) :
    (rollingStd rsqrt w xs).length = xs.length := by simp [rollingStd]

@[simp]
theorem diffL_length (xs : List ℚ) : (diffL xs).length = xs.length := by simp [diffL]

@[simp]
theorem shiftL_length (xs : List ℚ) : (shiftL xs).length = xs.length := by simp [shiftL]

@[simp]
theorem gainL_length (d : List (Option ℚ)) : (gainL d).length = d.length := by simp [gainL]

@[simp]
theorem lossL_length (d : List (Option ℚ)) : (lossL d).length = d.length := by simp [lossL]

@[simp]
theorem replZeroNaN_length (xs : List ℚ) : (replZeroNaN xs).length = xs.length := by
  simp [replZeroNaN]

@[simp]
theorem emaGo_length (a prev : ℚ) (xs : List ℚ) : (emaGo a prev xs).length = xs.length := by
  induction xs generalizing prev with
  | nil => rfl
  | cons x rest ih => simp [emaGo, ih]

@[simp]
theorem emaL_length (s : ℕ) (xs : List ℚ) : (emaL s xs).length = xs.length := by
  cases xs with
  | nil => rfl
  | cons x rest => simp [emaL]

@[simp]
theorem bfillL_length (xs : List (Option ℚ)) : (bfillL xs).length = xs.length := by
  induction xs with
  | nil => rfl
  | cons x rest ih => simp [bfillL, ih]

@[simp]
theorem ffillGo_length (carry : Option ℚ) (xs : List (Option ℚ)) :
    (ffillGo carry xs).length = xs.length := by
  induction xs generalizing carry with
  | nil => rfl
  | cons x rest ih =>
    cases x with
    | some v => simp [ffillGo, ih]
    | none => simp [ffillGo, ih]

@[simp]
theorem ffillL_length (xs : List (Option ℚ)) : (ffillL xs).length = xs.length := by
  simp [ffillL]

@[simp]
theorem fill0_length (xs : List (Option ℚ)) : (fill0 xs).length = xs.length := by
  simp [fill0]

@[simp]
theorem finalFill_length (xs : List (Option ℚ)) : (finalFill xs).length = xs.length := by
  simp [finalFill]

theorem finalFill_isSome (xs : List (Option ℚ)) :
    ∀ o ∈ finalFill xs, o.isSome = true := by
  intro o ho
  unfold finalFill fill0 at ho
  obtain ⟨a, _, rfl⟩ := List.mem_map.mp ho
  rfl

/-- The raw columns `calculate_indicators` reads. -/
structure PriceDf where
  close : List ℚ
  high : List ℚ
  low : List ℚ
  deriving DecidableEq, Repr

/-- The enriched frame: raw columns plus the derived columns (after the
final fills; the fills are the identity on the always-defined raw
columns). -/
structure IndicatorDf where
  close : List ℚ
  high : List ℚ
  low : List ℚ
  sma20 : List (Option ℚ)
  bbStd : List (Option ℚ)
  bbUpper : List (Option ℚ)
  bbLower : List (Option ℚ)
  bbWidth : List (Option ℚ)
  rsi : List (Option ℚ)
  macd : List (Option ℚ)
  macdSignal : List (Option ℚ)
  macdHist : List (Option ℚ)
  atr : List (Option ℚ)
  atrPct : List (Option ℚ)
  deriving DecidableEq, Repr

namespace Analysis

/-- `calculate_indicators` of src/analysis.py.  A frame shorter than 5 rows
is returned unchanged (`Sum.inl`); otherwise the enriched frame is built
(`Sum.inr`).  The RSI column's `clip(0, 100).fillna(50)` is modelled on the
already-total series (`fillna(50)` is then the identity). -/
def calculate_indicators (rsqrt : ℚ → ℚ) (df : PriceDf) : PriceDf ⊕ IndicatorDf :=
  if df.close.length < 5 then Sum.inl df
  else
    let sma20 := rollingMean 20 df.close
    let bbStd := rollingStd rsqrt 20 df.close
    let bbUpper := List.zipWith (fun s o => o.map (fun v => s + v * 2)) sma20 bbStd
    let bbLower := List.zipWith (fun s o => o.map (fun v => s - v * 2)) sma20 bbStd
    let bbWidth := List.zipWith
      (fun (ul : Option ℚ × Option ℚ) s =>
        match ul.1, ul.2 with
        | some u, some l => some ((u - l) / s * 100)
        | _, _ => none)
      (bbUpper.zip bbLower) sma20
    let delta := diffL df.close
    let gain := rollingMean 14 (gainL delta)
    let loss := rollingMean 14 (lossL delta)
    let rs := List.zipWith (fun g o => o.map (fun l => g / l)) gain (replZeroNaN loss)
    let rsF := rs.map (fun o => o.getD 0)
    let rsi := rsF.map (fun r => min 100 (max 0 (100 - 100 / (1 + r))))
    let ema12 := emaL 12 df.close
    let ema26 := emaL 26 df.close
    let macd := List.zipWith (fun a b => a - b) ema12 ema26
    let macdSignal := emaL 9 macd
    let macdHist := List.zipWith (fun a b => a - b) macd macdSignal
    let prevC := shiftL df.close
    let highLow := List.zipWith (fun h l => h - l) df.high df.low
    let highClose := List.zipWith (fun h pc => pc.map (fun c => |h - c|)) df.high prevC
    let lowClose := List.zipWith (fun l pc => pc.map (fun c => |l - c|)) df.low prevC
    let tr := List.zipWith
      (fun a (bc : Option ℚ × Option ℚ) => maxSkipNa (maxSkipNa a bc.1) bc.2)
      highLow (highClose.zip lowClose)
    let atr := rollingMean 14 tr
    let atrPct := List.zipWith (fun a c => a / c * 100) atr df.close
    Sum.inr
      { close := df.close
        high := df.high
        low := df.low
        sma20 := finalFill (sma20.map some)
        bbStd := finalFill bbStd
        bbUpper := finalFill bbUpper
        bbLower := finalFill bbLower
        bbWidth := finalFill bbWidth
        rsi := finalFill (rsi.map some)
        macd := finalFill (macd.map some)
        macdSignal := finalFill (macdSignal.map some)
        macdHist := finalFill (macdHist.map some)
        atr := finalFill (atr.map some)
        atrPct := finalFill (atrPct.map some) }

end Analysis

/-- A one-bar frame for the C6 counterexample. -/
def df1 : PriceDf := { close := [100], high := [101], low := [99] }

/-- C6 counterexample: on a PriceSeries of length 1 `calculate_indicators`
returns the frame unchanged — no derived column (`SMA20`, …) is present at
all, contradicting the claim for lengths 1 through 4 (the guard is
`len(df) < 5`; the app.py variant even requires 50 bars and never produces
a MACD histogram column). -/
theorem C6_indicator_fill_counterexample :
    Analysis.calculate_indicators (fun _ => 0) df1 = Sum.inl df1
    ∧ df1.close.length = 1 := by
  constructor
  · norm_num [Analysis.calculate_indicators, df1]
  · rfl

/-- C6 (amended): for every PriceSeries of length at least 5 (with aligned
High/Low columns), `calculate_indicators` returns the enriched frame, and
every derived column — SMA20, Bollinger std/upper/lower/width, RSI, MACD
line/signal/histogram, ATR and ATR-percent — has a (non-NaN) value in every
row; series of length 1 to 4 are returned unchanged with no derived
columns, as the counterexample shows. -/
theorem C6_indicator_fill_amended (rsqrt : ℚ → ℚ) (df : PriceDf)
    (hlen : 5 ≤ df.close.length)
    (hh : df.high.length = df.close.length)
    (hl : df.low.length = df.close.length)
    (E : IndicatorDf)
    (hE : Analysis.calculate_indicators rsqrt df = Sum.inr E) :
    (E.sma20.length = df.close.length ∧ ∀ o ∈ E.sma20, o.isSome = true)
    ∧ (E.bbStd.length = df.close.length ∧ ∀ o ∈ E.bbStd, o.isSome = true)
    ∧ (E.bbUpper.length = df.close.length ∧ ∀ o ∈ E.bbUpper, o.isSome = true)
    ∧ (E.bbLower.length = df.close.length ∧ ∀ o ∈ E.bbLower, o.isSome = true)
    ∧ (E.bbWidth.length = df.close.length ∧ ∀ o ∈ E.bbWidth, o.isSome = true)
    ∧ (E.rsi.length = df.close.length ∧ ∀ o ∈ E.rsi, o.isSome = true)
    ∧ (E.macd.length = df.close.length ∧ ∀ o ∈ E.macd, o.isSome = true)
    ∧ (E.macdSignal.length = df.close.length ∧ ∀ o ∈ E.macdSignal, o.isSome = true)
    ∧ (E.macdHist.length = df.close.length ∧ ∀ o ∈ E.macdHist, o.isSome = true)
    ∧ (E.atr.length = df.close.length ∧ ∀ o ∈ E.atr, o.isSome = true)
    ∧ (E.atrPct.length = df.close.length ∧ ∀ o ∈ E.atrPct, o.isSome = true) := by
  unfold Analysis.calculate_indicators at hE
  rw [if_neg (not_lt.mpr hlen)] at hE
  injection hE with hE2
  subst hE2
  refine ⟨⟨?_, finalFill_isSome _⟩, ⟨?_, finalFill_isSome _⟩, ⟨?_, finalFill_isSome _⟩,
    ⟨?_, finalFill_isSome _⟩, ⟨?_, finalFill_isSome _⟩, ⟨?_, finalFill_isSome _⟩,
    ⟨?_, finalFill_isSome _⟩, ⟨?_, finalFill_isSome _⟩, ⟨?_, finalFill_isSome _⟩,
    ⟨?_, finalFill_isSome _⟩, ⟨?_, finalFill_isSome _⟩⟩ <;>
    simp [hh, hl]

/-- Extract the enriched frame from the sum, with a default. -/
def extractInr (s : PriceDf ⊕ IndicatorDf) (d : IndicatorDf) : IndicatorDf :=
  match s with
  | .inl _ => d
  | .inr e => e

/-- All-empty enriched frame, used as the `extractInr` default. -/
def dummyIndicatorDf : IndicatorDf :=
  { close := [], high := [], low := [], sma20 := [], bbStd := [], bbUpper := []
    bbLower := [], bbWidth := [], rsi := [], macd := [], macdSignal := []
    macdHist := [], atr := [], atrPct := [] }

/-- A flat five-bar frame for the C6 witness. -/
def df5 : PriceDf :=
  { close := [100, 100, 100, 100, 100]
    high := [100, 100, 100, 100, 100]
    low := [100, 100, 100, 100, 100] }

/-- Witness for the amended C6 on the five-bar frame `df5` (with the
abstract square root instantiated by the zero function): the enriched frame
is produced and, e.g., its SMA20 and ATR-percent columns have five rows. -/
theorem C6_indicator_fill_amended_witness :
    (extractInr (Analysis.calculate_indicators (fun _ => 0) df5)
      dummyIndicatorDf).sma20.length = df5.close.length
    ∧ (extractInr (Analysis.calculate_indicators (fun _ => 0) df5)
      dummyIndicatorDf).atrPct.length = df5.close.length := by
  have hE : Analysis.calculate_indicators (fun _ => 0) df5
      = Sum.inr (extractInr (Analysis.calculate_indicators (fun _ => 0) df5)
        dummyIndicatorDf) := by
    norm_num [Analysis.calculate_indicators, extractInr, df5, rollingMean, rollingStd,
      windowQ, diffL, gainL, lossL, replZeroNaN, emaL, emaGo, shiftL, maxSkipNa,
      finalFill, fill0, ffillL, ffillGo, bfillL, List.range_succ, abs]
  have h := C6_indicator_fill_amended (fun _ => 0) df5 (by norm_num [df5])
    (by norm_num [df5]) (by norm_num [df5]) _ hE
  exact ⟨h.1.1, h.2.2.2.2.2.2.2.2.2.2.1⟩

end SpyIC
